import Mathlib

/-!
Verification of the area-map component in `src/src/App.tsx` (both the full
variant with the church overlay and the basic variant). Each operation the
claims touch is embedded as an executable Lean definition translated from the
TypeScript source: JS numbers that stay within the double-exact integer range
are modelled by `Int`/`Nat`/`ℚ`, the 32-bit wrap of the `<<` operator is made
explicit, JS `||` fallbacks are modelled by functions that treat the empty
string as falsy, and the two network round trips of `fetchAreaInfo` are
modelled by an explicit environment in which every request either returns a
parsed value or fails (covering network and parse failures alike).
-/

namespace MvpMap

/-- JS `v || d` for a string-valued field: falls back to `d` when `v` is absent
(`null`/`undefined`) or the empty string (both falsy), else keeps the string. -/
def jsOrStr (v : Option String) (d : String) : String :=
  match v with
  | none => d
  | some s => if s = "" then d else s

/-- JS `v?.field || null` collapsed to an optional string: an absent value or an
empty string becomes `none`. -/
def jsOrOpt (v : Option String) : Option String :=
  match v with
  | none => none
  | some s => if s = "" then none else some s

/-- JS `String.prototype.toLowerCase`, modelled characterwise. -/
def jsToLower (s : String) : String := ⟨s.data.map Char.toLower⟩

/-- JS `String.prototype.toUpperCase`, modelled characterwise. -/
def jsToUpper (s : String) : String := ⟨s.data.map Char.toUpper⟩

/-- JS `hay.includes(need)`: substring containment. -/
def jsIncludes (hay need : String) : Bool :=
  (List.range (hay.data.length + 1)).any (fun i => need.data.isPrefixOf (hay.data.drop i))

/-- Whether `s.trim()` is empty (falsy), i.e. every character of `s` is whitespace. -/
def isBlank (s : String) : Bool := s.data.all Char.isWhitespace

/-- The fixed palette of the `colors` array in `getAreaColor` (`src/src/App.tsx`,
lines 87-94): 30 entries, listed in source order. -/
def areaColors : List String :=
  ["#FF6B6B", "#4ECDC4", "#45B7D1", "#96CEB4", "#FECA57",
   "#FF9FF3", "#54A0FF", "#5F27CD", "#00D2D3", "#FF9F43",
   "#C44569", "#F8B500", "#6C5CE7", "#A55EEA", "#26DE81",
   "#FD79A8", "#E17055", "#00B894", "#0984E3", "#6C5CE7",
   "#F39C12", "#E74C3C", "#9B59B6", "#3498DB", "#1ABC9C",
   "#E67E22", "#95A5A6", "#34495E", "#2ECC71", "#F1C40F"]

/-- ToInt32 of JS: wrap an integer into the signed 32-bit range. -/
def toInt32 (x : Int) : Int :=
  let m := x % 4294967296
  if m < 2147483648 then m else m - 4294967296

/-- JS `x << 5`: the operand is converted with ToInt32, shifted, and the result
wrapped back into the signed 32-bit range. -/
def jsShl5 (x : Int) : Int := toInt32 (toInt32 x * 32)

/-- One iteration of the hash loop in `getAreaColor`:
`hash = areaName.charCodeAt(i) + ((hash << 5) - hash)`. Outside the shift this
is plain (double-exact) integer arithmetic. -/
def hashStep (h : Int) (c : Nat) : Int := (c : Int) + (jsShl5 h - h)

/-- The rolling hash of `getAreaColor`, folded left to right over the characters
of the name (char codes modelled by code points, which agree with UTF-16 code
units on the Basic Multilingual Plane). -/
def areaHash (s : String) : Int := s.data.foldl (fun h ch => hashStep h ch.toNat) 0

/-- `getAreaColor` from `src/src/App.tsx` (lines 86-103): index the palette with
`Math.abs(hash) % colors.length`. -/
def getAreaColor (areaName : String) : String :=
  areaColors.getD ((areaHash areaName).natAbs % areaColors.length) ""

/-- Outcome of one network round trip in `fetchAreaInfo`: a parsed value, or a
failure of any kind (transport error, non-JSON body, JSON without the shape the
code dereferences) — every failure throws in the source and lands in the one
`catch` block. -/
inductive NetResult (α : Type) where
  | ok (val : α)
  | fail
deriving DecidableEq

/-- The fields of a Wikipedia page-summary response that `fetchAreaInfo` reads;
`none` models an absent (`undefined`/`null`) field, and `thumbnailSource` /
`pageUrl` stand for `thumbnail?.source` and `content_urls?.desktop?.page`. -/
structure WikiSummary where
  title : Option String
  extract : Option String
  thumbnailSource : Option String
  pageUrl : Option String
deriving DecidableEq

/-- Network environment of `fetchAreaInfo`: the MediaWiki search endpoint,
returning the result titles in order, and the page-summary endpoint. -/
structure WikiEnv where
  search : String → NetResult (List String)
  summary : String → NetResult WikiSummary

/-- The record `fetchAreaInfo` resolves with. -/
structure AreaInfoResult where
  title : String
  extract : String
  thumbnail : Option String
  pageUrl : Option String
deriving DecidableEq

/-- Default returned when both searches come back with zero results. -/
def noInfoDefault (areaName : String) : AreaInfoResult :=
  ⟨areaName, "No Wikipedia information available for this area.", none, none⟩

/-- Default returned from the `catch` block on any network or parse failure. -/
def failureDefault (areaName : String) : AreaInfoResult :=
  ⟨areaName, "Information not available.", none, none⟩

/-- The record built on the success path of `fetchAreaInfo` (lines 163-168):
every field uses a JS `||` fallback, so an empty string is replaced like an
absent one. -/
def successRecord (areaName : String) (sd : WikiSummary) : AreaInfoResult :=
  ⟨jsOrStr sd.title areaName, jsOrStr sd.extract "No description available.",
   jsOrOpt sd.thumbnailSource, jsOrOpt sd.pageUrl⟩

/-- `fetchAreaInfo` from `src/src/App.tsx` (lines 123-178): search for
`"<areaName> Curaçao"`, fall back to `areaName` alone when that search has zero
hits, return `noInfoDefault` when the hits are still zero, otherwise fetch the
summary of the first hit; any failed step ends in the `catch` block. -/
def fetchAreaInfo (env : WikiEnv) (areaName : String) : AreaInfoResult :=
  match env.search (areaName ++ " Curaçao") with
  | .fail => failureDefault areaName
  | .ok r1 =>
    match (if r1.isEmpty then env.search areaName else .ok r1) with
    | .fail => failureDefault areaName
    | .ok [] => noInfoDefault areaName
    | .ok (firstTitle :: _) =>
      match env.summary firstTitle with
      | .fail => failureDefault areaName
      | .ok sd => successRecord areaName sd

/-- The style attributes `selectArea` writes through `setStyle`. -/
structure LayerStyle where
  weight : Nat
  color : String
  fillOpacity : ℚ
deriving DecidableEq

/-- Style written to the layer matching the selected name (weight 3, accent
stroke, fill opacity 0.9). -/
def selectedLayerStyle : LayerStyle := ⟨3, "#1d4ed8", 9/10⟩

/-- Style written to every non-matching layer (weight 1, white stroke, fill
opacity 0.7). -/
def defaultLayerStyle : LayerStyle := ⟨1, "#ffffff", 7/10⟩

/-- One rendered map layer as `selectArea`'s `eachLayer` pass sees it:
`featureName` is `layer.feature.properties.NAME` (`none` when the layer has no
feature), `hasLabel` whether `onEachFeature` attached a `_label` marker, and
`labelShown` whether that marker is currently on the map. -/
structure MapLayer where
  featureName : Option String
  hasLabel : Bool
  style : LayerStyle
  labelShown : Bool
deriving DecidableEq

/-- The body of the `eachLayer` pass in `selectArea` (lines 479-520): the layer
whose feature name equals the selected name gets the selected style and its
label shown; every other layer gets the default style and its label hidden.
The label is only touched when it exists. -/
def restyleForSelection (areaName : String) (l : MapLayer) : MapLayer :=
  if l.featureName = some areaName then
    { l with style := selectedLayerStyle,
             labelShown := if l.hasLabel then true else l.labelShown }
  else
    { l with style := defaultLayerStyle,
             labelShown := if l.hasLabel then false else l.labelShown }

/-- The state `selectArea` reads and writes: the global selected-area value and
the rendered polygon layers. -/
structure AppState where
  selectedArea : Option String
  layers : List MapLayer
deriving DecidableEq

/-- The side effects of one `selectArea` call that are skipped when no layer is
passed: the `fitBounds` pan/zoom and the popup bind/open. -/
structure SelectEffects where
  panZoomed : Bool
  popupBound : Bool
deriving DecidableEq

/-- `selectArea` from `src/src/App.tsx` (lines 458-522): set the global selected
area, pan/zoom and bind the popup only when a layer reference was passed (the
popup additionally needs the layer to carry a feature), then restyle every
rendered layer. -/
def selectArea (areaName : String) (layer : Option MapLayer) (s : AppState) :
    AppState × SelectEffects :=
  let fx : SelectEffects :=
    match layer with
    | none => ⟨false, false⟩
    | some l => ⟨true, l.featureName.isSome⟩
  (⟨some areaName, s.layers.map (restyleForSelection areaName)⟩, fx)

/-- A church point-of-interest record as loaded from the Point features. -/
structure Church where
  name : String
  area : String
  photo : String
  description : String
deriving DecidableEq

/-- The area match of `showChurchesForArea` (line 225):
`church.properties.area.toUpperCase() === areaName.toUpperCase()`. -/
def churchMatches (areaName : String) (c : Church) : Bool :=
  jsToUpper c.area = jsToUpper areaName

/-- `clearChurchMarkers` (lines 207-214): when the map instance exists, remove
every tracked marker and empty the tracking array; otherwise do nothing. The
returned list is the tracking array (`churchMarkersRef`), whose members are the
markers currently on the map. -/
def clearChurchMarkers (mapPresent : Bool) (markers : List Church) : List Church :=
  if mapPresent then [] else markers

/-- `showChurchesForArea` (lines 217-232): return early when the map instance is
absent; otherwise clear the tracked markers, then add one marker per church
whose area matches the name case-insensitively. -/
def showChurchesForArea (mapPresent : Bool) (churchesData : List Church)
    (areaName : String) (markers : List Church) : List Church :=
  if mapPresent then churchesData.filter (churchMatches areaName) else markers

/-- Geometry type of a GeoJSON feature, as far as the loader inspects it. -/
inductive GeomType where
  | polygon
  | multiPolygon
  | point
deriving DecidableEq

/-- A feature of the loaded dataset with the properties the loader reads
(`NAME`, `pop`, `HH`, `meanPinc`); `none` models an absent property. -/
structure RawFeature where
  geomType : GeomType
  nameProp : Option String
  pop : Option Nat
  hh : Option Nat
  meanPinc : Option ℚ
deriving DecidableEq

/-- The `AreaInfo` interface of `src/src/App.tsx` (lines 6-11). -/
structure AreaInfo where
  name : String
  population : Nat
  households : Nat
  meanIncome : ℚ
deriving DecidableEq

/-- The polygon filter of the full-variant loader (line 49):
`type === 'Polygon' || type === 'MultiPolygon'`. -/
def isPolygonal (f : RawFeature) : Bool :=
  f.geomType = GeomType.polygon || f.geomType = GeomType.multiPolygon

/-- The per-feature mapping of the loader (lines 50-54): each property falls
back to a default with JS `||` (`'Unknown'`, `0`). -/
def featureToArea (f : RawFeature) : AreaInfo :=
  { name := jsOrStr f.nameProp "Unknown",
    population := f.pop.getD 0,
    households := f.hh.getD 0,
    meanIncome := f.meanPinc.getD 0 }

/-- Lexicographic order on character lists by code point, used to model the
loader's `localeCompare` comparator. -/
def listLE : List Char → List Char → Bool
  | [], _ => true
  | _ :: _, [] => false
  | a :: as, b :: bs =>
    if a.toNat < b.toNat then true
    else if b.toNat < a.toNat then false
    else listLE as bs

/-- Comparator of the loader's `.sort(...)`, modelled as lexicographic order on
the names (a stand-in for `localeCompare`; the claims only use that sorting
permutes the list). -/
def areaLE (a b : AreaInfo) : Prop := listLE a.name.data b.name.data = true

instance : DecidableRel areaLE :=
  fun a b => inferInstanceAs (Decidable (listLE a.name.data b.name.data = true))

/-- The loader's sort step. -/
def sortAreas (l : List AreaInfo) : List AreaInfo := l.insertionSort areaLE

/-- `loadGeoJSON`'s area extraction in the full variant (lines 48-55): keep the
polygonal features, map them to records, sort by name. -/
def loadAreasFull (features : List RawFeature) : List AreaInfo :=
  sortAreas ((features.filter isPolygonal).map featureToArea)

/-- `loadGeoJSON`'s area extraction in the basic variant (lines 790-795): map
every feature — with no geometry filter — to a record, sort by name. -/
def loadAreasBasic (features : List RawFeature) : List AreaInfo :=
  sortAreas (features.map featureToArea)

/-- JS division restricted to its finite outcomes: with finite operands, `a / b`
is a finite number exactly when `b ≠ 0` (`0 / 0` is `NaN`, `x / 0` is
`±Infinity`). `none` stands for a non-finite result. -/
def jsDivFin (a b : ℚ) : Option ℚ := if b = 0 then none else some (a / b)

/-- The label anchor computed by `onEachFeature` for a `Polygon` feature
(lines 546-554): sum the first ring's coordinates over indices `0..n-2` and
divide both sums by `n - 1`, giving `L.latLng(y / (n-1), x / (n-1))`
(latitude first; a GeoJSON position is `[x, y] = [longitude, latitude]`). -/
def ringLabelCenter (ring : List (ℚ × ℚ)) : Option (ℚ × ℚ) :=
  let pts := ring.take (ring.length - 1)
  let x := (pts.map Prod.fst).sum
  let y := (pts.map Prod.snd).sum
  let d : ℚ := (ring.length : ℚ) - 1
  match jsDivFin y d, jsDivFin x d with
  | some lat, some lng => some (lat, lng)
  | _, _ => none


/-- Every color the assigner produces is a member of the fixed palette: the
index `|hash| % 30` is always in range. -/
theorem getAreaColor_mem (s : String) : getAreaColor s ∈ areaColors := by
  have hlen : areaColors.length = 30 := by decide
  have hlt : (areaHash s).natAbs % areaColors.length < areaColors.length := by
    rw [hlen]; exact Nat.mod_lt _ (by decide)
  rw [getAreaColor, List.getD_eq_getElem?_getD, List.getElem?_eq_getElem hlt]
  simp

/-- C4: `getAreaColor` is a pure, deterministic, total function of the name. It
folds the name left to right with `acc = charCode + (acc << 5) - acc` into a
signed accumulator (`areaHash`), indexes the fixed 30-entry palette with the
absolute value of the accumulator modulo the palette size, its output is always
a member of that palette, and the same name always yields the same color. -/
theorem getAreaColor_spec (s t : String) :
    areaColors.length = 30 ∧
    getAreaColor s = areaColors.getD ((areaHash s).natAbs % 30) "" ∧
    getAreaColor s ∈ areaColors ∧
    (s = t → getAreaColor s = getAreaColor t) := by
  refine ⟨by decide, ?_, getAreaColor_mem s, fun h => by rw [h]⟩
  have hlen : areaColors.length = 30 := by decide
  rw [getAreaColor, hlen]

/-- C5 counterexample: the distinct names `"A"` and `"_"` (char codes 65 and 95,
both hashing to palette index 5) receive the same color, so distinct areas are
not always colored distinctly. -/
theorem getAreaColor_not_injective :
    getAreaColor "A" = getAreaColor "_" ∧ "A" ≠ "_" := by
  constructor <;> decide

/-- C5 amended: every area color is drawn from the fixed 30-entry palette and
the assignment is deterministic in the name, but the map from names to colors
is not injective — `"A"` and `"_"` collide. -/
theorem getAreaColor_palette_only :
    (∀ s : String, getAreaColor s ∈ areaColors) ∧
    getAreaColor "A" = areaColors.getD 5 "" ∧
    getAreaColor "_" = areaColors.getD 5 "" :=
  ⟨getAreaColor_mem, by decide, by decide⟩

/-- C7: invoking `selectArea` for a name with no rendered layer skips the
pan/zoom and the popup binding, but still sets the global selected-area value
to that name and still runs the restyling/label pass over every layer. -/
theorem selectArea_no_layer (s : AppState) (areaName : String) :
    (selectArea areaName none s).2.panZoomed = false ∧
    (selectArea areaName none s).2.popupBound = false ∧
    (selectArea areaName none s).1.selectedArea = some areaName ∧
    (selectArea areaName none s).1.layers = s.layers.map (restyleForSelection areaName) :=
  ⟨rfl, rfl, rfl, rfl⟩

/-- C8: `showChurchesForArea` first removes every tracked marker and then shows
exactly the churches whose `area` property matches the name case-insensitively
(its result does not depend on the markers previously shown); both it and
`clearChurchMarkers` are idempotent and safe to call with zero markers shown. -/
theorem churchOverlay_spec (mapPresent : Bool) (churchesData : List Church)
    (areaName : String) (markers : List Church) :
    clearChurchMarkers mapPresent (clearChurchMarkers mapPresent markers) =
      clearChurchMarkers mapPresent markers ∧
    showChurchesForArea mapPresent churchesData areaName
        (showChurchesForArea mapPresent churchesData areaName markers) =
      showChurchesForArea mapPresent churchesData areaName markers ∧
    clearChurchMarkers mapPresent ([] : List Church) = [] ∧
    (mapPresent = true → clearChurchMarkers mapPresent markers = []) ∧
    (mapPresent = true →
      showChurchesForArea mapPresent churchesData areaName markers =
        churchesData.filter (churchMatches areaName)) ∧
    (mapPresent = true → ∀ c, c ∈ showChurchesForArea mapPresent churchesData areaName markers ↔
      c ∈ churchesData ∧ churchMatches areaName c = true) := by
  cases mapPresent <;>
    simp [clearChurchMarkers, showChurchesForArea, List.mem_filter]

/-- Demo church list used to instantiate the overlay theorem. -/
def demoChurches : List Church :=
  [⟨"St. Anna Basilica", "Willemstad", "", ""⟩, ⟨"Chapel", "Bandabou", "", ""⟩]

/-- Witness for `churchOverlay_spec` at a concrete state: with the map present,
selecting `"WILLEMSTAD"` shows exactly the church recorded under
`"Willemstad"` (case-insensitive match) and clearing empties the tracking. -/
theorem churchOverlay_spec_witness :
    showChurchesForArea true demoChurches "WILLEMSTAD" [] =
      [⟨"St. Anna Basilica", "Willemstad", "", ""⟩] ∧
    clearChurchMarkers true ([] : List Church) = [] := by
  have h := churchOverlay_spec true demoChurches "WILLEMSTAD" []
  exact ⟨(h.2.2.2.2.1 rfl).trans (by decide), h.2.2.2.1 rfl⟩

/-- C1: selecting a new area deselects the previous one. For areas `A ≠ B` with
`A` currently selected, after `selectArea B` the global selection is `B` and,
across the whole layer, exactly the layers named `B` carry the selected style
(weight 3, fill opacity 0.9) with their label shown, while every other layer —
`A`'s included — carries the default style with its label hidden. (`hlab`: the
pass only toggles labels that exist, and `onEachFeature` creates one for every
named feature.) -/
theorem selectArea_exclusive (s : AppState) (A B : String) (layerB : Option MapLayer)
    (_hAB : A ≠ B) (_hsel : s.selectedArea = some A)
    (hlab : ∀ l ∈ s.layers, l.hasLabel = true) :
    (selectArea B layerB s).1.selectedArea = some B ∧
    ∀ l ∈ (selectArea B layerB s).1.layers,
      (l.featureName = some B → l.style = selectedLayerStyle ∧ l.labelShown = true) ∧
      (l.featureName ≠ some B → l.style = defaultLayerStyle ∧ l.labelShown = false) := by
  refine ⟨rfl, ?_⟩
  intro l hl
  have hl' : l ∈ s.layers.map (restyleForSelection B) := hl
  rcases List.mem_map.mp hl' with ⟨l0, hl0, rfl⟩
  have hlab0 : l0.hasLabel = true := hlab l0 hl0
  by_cases h : l0.featureName = some B
  · refine ⟨fun _ => ?_, fun hne => absurd ?_ hne⟩
    · simp [restyleForSelection, h, hlab0]
    · simp [restyleForSelection, h]
  · refine ⟨fun heq => absurd ?_ h, fun _ => ?_⟩
    · simp only [restyleForSelection, if_neg h] at heq
      exact heq
    · simp [restyleForSelection, h, hlab0]

/-- Demo layers and state used to instantiate the selection theorems. -/
def demoLayerA : MapLayer := ⟨some "A", true, selectedLayerStyle, true⟩

/-- Second demo layer, initially unselected. -/
def demoLayerB : MapLayer := ⟨some "B", true, defaultLayerStyle, false⟩

/-- Demo state: `"A"` selected, two rendered layers. -/
def demoState : AppState := ⟨some "A", [demoLayerA, demoLayerB]⟩

/-- Witness for `selectArea_exclusive`: in the concrete two-layer state with
`"A"` selected, selecting `"B"` re-records the selection and reverts `A`'s
layer to the default style with its label hidden. -/
theorem selectArea_exclusive_witness :
    (selectArea "B" none demoState).1.selectedArea = some "B" ∧
    (restyleForSelection "B" demoLayerA).style = defaultLayerStyle ∧
    (restyleForSelection "B" demoLayerA).labelShown = false := by
  have h := selectArea_exclusive demoState "A" "B" none (by decide) rfl (by decide)
  have hm : restyleForSelection "B" demoLayerA ∈ (selectArea "B" none demoState).1.layers :=
    List.mem_map_of_mem (restyleForSelection "B") (List.mem_cons_self _ _)
  have h2 := (h.2 _ hm).2 (by decide)
  exact ⟨h.1, h2.1, h2.2⟩

/-- C2: `fetchAreaInfo` never raises — its result is always one of the failure
default, the zero-hit default, or the success record. When the primary search
(`"<areaName> Curaçao"`) and the fallback search (`areaName` alone) both return
zero results, the result is the "No Wikipedia information" default; when any
network or parse step fails — either search request, or the summary request on
either search path — the remaining steps are skipped and the result is the
"Information not available" default. -/
theorem fetchAreaInfo_total (env : WikiEnv) (areaName : String) :
    (fetchAreaInfo env areaName = failureDefault areaName ∨
     fetchAreaInfo env areaName = noInfoDefault areaName ∨
     ∃ t sd, env.summary t = .ok sd ∧ fetchAreaInfo env areaName = successRecord areaName sd) ∧
    (env.search (areaName ++ " Curaçao") = .ok [] → env.search areaName = .ok [] →
      fetchAreaInfo env areaName = noInfoDefault areaName) ∧
    (env.search (areaName ++ " Curaçao") = .fail →
      fetchAreaInfo env areaName = failureDefault areaName) ∧
    (env.search (areaName ++ " Curaçao") = .ok [] → env.search areaName = .fail →
      fetchAreaInfo env areaName = failureDefault areaName) ∧
    (∀ t ts, env.search (areaName ++ " Curaçao") = .ok (t :: ts) → env.summary t = .fail →
      fetchAreaInfo env areaName = failureDefault areaName) ∧
    (∀ t ts, env.search (areaName ++ " Curaçao") = .ok [] →
      env.search areaName = .ok (t :: ts) → env.summary t = .fail →
      fetchAreaInfo env areaName = failureDefault areaName) := by
  refine ⟨?_, ?_, ?_, ?_, ?_, ?_⟩
  · cases h1 : env.search (areaName ++ " Curaçao") with
    | fail => exact Or.inl (by simp [fetchAreaInfo, h1])
    | ok r1 =>
      cases r1 with
      | cons t ts =>
        cases h3 : env.summary t with
        | fail => exact Or.inl (by simp [fetchAreaInfo, h1, h3])
        | ok sd => exact Or.inr (Or.inr ⟨t, sd, h3, by simp [fetchAreaInfo, h1, h3]⟩)
      | nil =>
        cases h2 : env.search areaName with
        | fail => exact Or.inl (by simp [fetchAreaInfo, h1, h2])
        | ok r2 =>
          cases r2 with
          | nil => exact Or.inr (Or.inl (by simp [fetchAreaInfo, h1, h2]))
          | cons t ts =>
            cases h3 : env.summary t with
            | fail => exact Or.inl (by simp [fetchAreaInfo, h1, h2, h3])
            | ok sd => exact Or.inr (Or.inr ⟨t, sd, h3, by simp [fetchAreaInfo, h1, h2, h3]⟩)
  · intro h1 h2; simp [fetchAreaInfo, h1, h2]
  · intro h1; simp [fetchAreaInfo, h1]
  · intro h1 h2; simp [fetchAreaInfo, h1, h2]
  · intro t ts h1 h3; simp [fetchAreaInfo, h1, h3]
  · intro t ts h1 h2 h3; simp [fetchAreaInfo, h1, h2, h3]

/-- Environment in which every request fails. -/
def envAllFail : WikiEnv := ⟨fun _ => .fail, fun _ => .fail⟩

/-- Environment in which both searches succeed with zero hits. -/
def envNoHits : WikiEnv := ⟨fun _ => .ok [], fun _ => .fail⟩

/-- Environment in which the search succeeds but the summary request fails. -/
def envSummaryFail : WikiEnv := ⟨fun _ => .ok ["Willemstad"], fun _ => .fail⟩

/-- Witness for `fetchAreaInfo_total` at concrete environments: a transport
failure degrades to the "Information not available" default, zero hits on both
searches to the "No Wikipedia information" default, and a summary failure after
a successful search again to the failure default. -/
theorem fetchAreaInfo_total_witness :
    fetchAreaInfo envAllFail "Otrobanda" = failureDefault "Otrobanda" ∧
    fetchAreaInfo envNoHits "Otrobanda" = noInfoDefault "Otrobanda" ∧
    fetchAreaInfo envSummaryFail "Otrobanda" = failureDefault "Otrobanda" :=
  ⟨(fetchAreaInfo_total envAllFail "Otrobanda").2.2.1 rfl,
   (fetchAreaInfo_total envNoHits "Otrobanda").2.1 rfl rfl,
   (fetchAreaInfo_total envSummaryFail "Otrobanda").2.2.2.2.1 "Willemstad" [] rfl rfl⟩

/-- Environment whose summary response carries all four fields present but
equal to the empty string. -/
def envEmptyFields : WikiEnv :=
  ⟨fun _ => .ok ["Willemstad"], fun _ => .ok ⟨some "", some "", some "", some ""⟩⟩

/-- C3 counterexample: with one search hit and a summary whose `title`,
`extract`, `thumbnail.source` and `content_urls.desktop.page` are all present
but empty strings, a nullish (`??`) fallback — which keeps a present empty
string — would return `⟨"", "", some "", some ""⟩`; the code's `||` fallbacks
treat the empty strings as falsy and return
`⟨areaName, "No description available.", none, none⟩` instead. -/
theorem fetchAreaInfo_nullish_claim_false :
    fetchAreaInfo envEmptyFields "X" = ⟨"X", "No description available.", none, none⟩ ∧
    fetchAreaInfo envEmptyFields "X" ≠ ⟨"", "", some "", some ""⟩ := by
  constructor <;> decide

/-- C3 amended: on the success path (at least one search hit on either search
and a successful summary fetch) the returned record is
`{ title: summary.title || areaName, extract: summary.extract || default,
thumbnail: summary.thumbnail?.source || null, pageUrl:
summary.content_urls?.desktop?.page || null }`, where `||` falls back both when
the field is absent and when it is the empty string (JS truthiness), as
`jsOrStr`/`jsOrOpt` spell out. -/
theorem fetchAreaInfo_success (env : WikiEnv) (areaName t : String) (ts : List String)
    (sd : WikiSummary)
    (h1 : env.search (areaName ++ " Curaçao") = .ok (t :: ts) ∨
      (env.search (areaName ++ " Curaçao") = .ok [] ∧ env.search areaName = .ok (t :: ts)))
    (h2 : env.summary t = .ok sd) :
    fetchAreaInfo env areaName =
      ⟨jsOrStr sd.title areaName, jsOrStr sd.extract "No description available.",
       jsOrOpt sd.thumbnailSource, jsOrOpt sd.pageUrl⟩ := by
  rcases h1 with h1 | ⟨h1, h1'⟩
  · simp [fetchAreaInfo, h1, h2, successRecord]
  · simp [fetchAreaInfo, h1, h1', h2, successRecord]

/-- Environment with a full, non-empty summary for the first search hit. -/
def envFullSummary : WikiEnv :=
  ⟨fun _ => .ok ["Willemstad"],
   fun _ => .ok ⟨some "Willemstad", some "Capital of Curaçao.",
                 some "https://img.example/w.jpg", some "https://en.example/Willemstad"⟩⟩

/-- Witness for `fetchAreaInfo_success` at a concrete environment: all four
summary fields are non-empty, so none of the fallbacks fire. -/
theorem fetchAreaInfo_success_witness :
    fetchAreaInfo envFullSummary "Punda" =
      ⟨"Willemstad", "Capital of Curaçao.",
       some "https://img.example/w.jpg", some "https://en.example/Willemstad"⟩ :=
  (fetchAreaInfo_success envFullSummary "Punda" "Willemstad" []
      ⟨some "Willemstad", some "Capital of Curaçao.",
       some "https://img.example/w.jpg", some "https://en.example/Willemstad"⟩
      (Or.inl rfl) rfl).trans (by decide)

/-- Transitivity of the boolean prefix test on character lists. -/
theorem isPrefixOf_trans : ∀ {a b c : List Char},
    a.isPrefixOf b = true → b.isPrefixOf c = true → a.isPrefixOf c = true
  | [], _, _, _, _ => by simp [List.isPrefixOf]
  | _ :: _, [], _, h₁, _ => by simp [List.isPrefixOf] at h₁
  | _ :: _, _ :: _, [], _, h₂ => by simp [List.isPrefixOf] at h₂
  | x :: xs, y :: ys, z :: zs, h₁, h₂ => by
    have e₁ : ((x :: xs).isPrefixOf (y :: ys)) = (x == y && xs.isPrefixOf ys) := rfl
    have e₂ : ((y :: ys).isPrefixOf (z :: zs)) = (y == z && ys.isPrefixOf zs) := rfl
    have e₃ : ((x :: xs).isPrefixOf (z :: zs)) = (x == z && xs.isPrefixOf zs) := rfl
    rw [e₁, Bool.and_eq_true, beq_iff_eq] at h₁
    rw [e₂, Bool.and_eq_true, beq_iff_eq] at h₂
    rw [e₃, Bool.and_eq_true, beq_iff_eq]
    exact ⟨h₁.1.trans h₂.1, isPrefixOf_trans h₁.2 h₂.2⟩

/-- Mapping a function over both lists preserves the boolean prefix test. -/
theorem isPrefixOf_map (f : Char → Char) : ∀ {a b : List Char},
    a.isPrefixOf b = true → (a.map f).isPrefixOf (b.map f) = true
  | [], _, _ => by simp [List.isPrefixOf]
  | _ :: _, [], h => by simp [List.isPrefixOf] at h
  | x :: xs, y :: ys, h => by
    have e : ((x :: xs).isPrefixOf (y :: ys)) = (x == y && xs.isPrefixOf ys) := rfl
    rw [e, Bool.and_eq_true, beq_iff_eq] at h
    have e' : (((x :: xs).map f).isPrefixOf ((y :: ys).map f))
        = (f x == f y && (xs.map f).isPrefixOf (ys.map f)) := rfl
    rw [e', Bool.and_eq_true, beq_iff_eq]
    exact ⟨by rw [h.1], isPrefixOf_map f h.2⟩

/-- A prefix of a list all of whose elements satisfy `p` also satisfies `p`
everywhere. -/
theorem all_of_isPrefixOf (p : Char → Bool) : ∀ {a b : List Char},
    a.isPrefixOf b = true → b.all p = true → a.all p = true
  | [], _, _, _ => rfl
  | _ :: _, [], h, _ => by simp [List.isPrefixOf] at h
  | x :: xs, y :: ys, h, hb => by
    have e : ((x :: xs).isPrefixOf (y :: ys)) = (x == y && xs.isPrefixOf ys) := rfl
    rw [e, Bool.and_eq_true, beq_iff_eq] at h
    rw [List.all_cons, Bool.and_eq_true] at hb ⊢
    exact ⟨h.1 ▸ hb.1, all_of_isPrefixOf p h.2 hb.2⟩

/-- A whitespace-only search term stays whitespace-only when shortened to a
prefix. -/
theorem isBlank_of_prefixOf {p q : String} (h : p.data.isPrefixOf q.data = true)
    (hq : isBlank q = true) : isBlank p = true :=
  all_of_isPrefixOf Char.isWhitespace h hq

/-- Substring containment is monotone: a haystack containing `q` contains every
prefix of `q`. -/
theorem jsIncludes_mono {hay q p : String} (hpq : p.data.isPrefixOf q.data = true)
    (h : jsIncludes hay q = true) : jsIncludes hay p = true := by
  rw [jsIncludes, List.any_eq_true] at h ⊢
  obtain ⟨i, hi, hpref⟩ := h
  exact ⟨i, hi, isPrefixOf_trans hpq hpref⟩

/-- The search filter of `src/src/App.tsx` (lines 584-593): a blank search term
keeps the whole backing list, any other term keeps the entries whose lowercased
name contains the lowercased term. -/
def filterAreas (searchTerm : String) (areas : List AreaInfo) : List AreaInfo :=
  if isBlank searchTerm then areas
  else areas.filter (fun a => jsIncludes (jsToLower a.name) (jsToLower searchTerm))

/-- C6: the search filter returns the full backing list unchanged (in its
existing order) for an empty or whitespace-only query; for any other query it
returns exactly the entries whose name contains the query case-insensitively,
in the same relative order (a `List.filter` of the backing list); and it is
monotone under query widening — for every prefix `p` of `q`, the result for
the stricter query `q` is a sublist (an order-preserving subset) of the result
for the looser query `p`. -/
theorem filterAreas_spec (q : String) (areas : List AreaInfo) :
    (isBlank q = true → filterAreas q areas = areas) ∧
    (isBlank q = false → filterAreas q areas =
      areas.filter (fun a => jsIncludes (jsToLower a.name) (jsToLower q))) ∧
    ∀ p : String, p.data.isPrefixOf q.data = true →
      (filterAreas q areas).Sublist (filterAreas p areas) := by
  refine ⟨fun h => by simp [filterAreas, h], fun h => by simp [filterAreas, h], ?_⟩
  intro p hp
  by_cases hq : isBlank q = true
  · have hpb : isBlank p = true := isBlank_of_prefixOf hp hq
    simp [filterAreas, hq, hpb]
  · by_cases hpb : isBlank p = true
    · rw [show filterAreas p areas = areas from by simp [filterAreas, hpb],
        show filterAreas q areas =
            areas.filter (fun a => jsIncludes (jsToLower a.name) (jsToLower q)) from by
          simp [filterAreas, hq]]
      exact List.filter_sublist areas
    · rw [show filterAreas p areas =
            areas.filter (fun a => jsIncludes (jsToLower a.name) (jsToLower p)) from by
          simp [filterAreas, hpb],
        show filterAreas q areas =
            areas.filter (fun a => jsIncludes (jsToLower a.name) (jsToLower q)) from by
          simp [filterAreas, hq]]
      refine List.monotone_filter_right areas ?_
      intro a ha
      have hmap : (jsToLower p).data.isPrefixOf (jsToLower q).data = true :=
        isPrefixOf_map Char.toLower hp
      exact jsIncludes_mono hmap ha

/-- Demo backing list for the filter witness (already in load-time order). -/
def demoAreas : List AreaInfo :=
  [⟨"Bandabou", 8000, 2000, 0⟩, ⟨"Willemstad", 150000, 50000, 0⟩]

/-- Witness for `filterAreas_spec`: a whitespace query keeps the whole list, the
query `"will"` keeps exactly the case-insensitive matches, and its result is a
sublist of the result for the shorter query `"wi"`. -/
theorem filterAreas_spec_witness :
    filterAreas "  " demoAreas = demoAreas ∧
    filterAreas "will" demoAreas =
      demoAreas.filter (fun a => jsIncludes (jsToLower a.name) (jsToLower "will")) ∧
    (filterAreas "will" demoAreas).Sublist (filterAreas "wi" demoAreas) :=
  ⟨(filterAreas_spec "  " demoAreas).1 (by decide),
   (filterAreas_spec "will" demoAreas).2.1 (by decide),
   (filterAreas_spec "will" demoAreas).2.2 "wi" (by decide)⟩

/-- C9 (amended, full variant): after the full-variant loader runs, the set of
AreaRecord names is exactly the set of (defaulted) `NAME` properties of the
polygonal (`Polygon` or `MultiPolygon`) features of the dataset — Point
features contribute no record, no polygonal feature is omitted, and the sort
step only permutes the records. -/
theorem loadAreasFull_names (features : List RawFeature) (n : String) :
    n ∈ (loadAreasFull features).map AreaInfo.name ↔
      n ∈ (features.filter isPolygonal).map (fun f => jsOrStr f.nameProp "Unknown") := by
  unfold loadAreasFull sortAreas
  have hperm :=
    (List.perm_insertionSort areaLE ((features.filter isPolygonal).map featureToArea)).map
      AreaInfo.name
  rw [hperm.mem_iff, List.map_map]
  rfl

/-- Dataset with one Polygon feature named "A" and one Point feature (Point
features carry no `NAME` property). -/
def cexFeatures : List RawFeature :=
  [⟨GeomType.polygon, some "A", none, none, none⟩,
   ⟨GeomType.point, none, none, none, none⟩]

/-- C9 counterexample: the basic-variant loader maps every feature with no
geometry filter, so the Point feature of `cexFeatures` also yields an
AreaRecord (named `"Unknown"` after defaulting) — a name that is not among the
polygon feature names. The claimed set equality fails on the basic variant. -/
theorem loadAreasBasic_point_leak :
    "Unknown" ∈ (loadAreasBasic cexFeatures).map AreaInfo.name ∧
    "Unknown" ∉ (cexFeatures.filter isPolygonal).map (fun f => jsOrStr f.nameProp "Unknown") := by
  constructor <;> decide

/-- C10 (amended): for a first ring with at least two positions, the label
anchor is the arithmetic mean of the ring's positions excluding the final
(closing) one — latitude `(Σ y)/(n-1)`, longitude `(Σ x)/(n-1)` over indices
`0..n-2` — and for a ring with exactly one position the divisor is `0`, the
sums are `0`, and the computed `0/0` position is not a finite coordinate. -/
theorem ringLabelCenter_mean (ring : List (ℚ × ℚ)) (h : 2 ≤ ring.length) :
    ringLabelCenter ring =
      some (((ring.take (ring.length - 1)).map Prod.snd).sum / ((ring.length : ℚ) - 1),
            ((ring.take (ring.length - 1)).map Prod.fst).sum / ((ring.length : ℚ) - 1)) ∧
    ∀ r : List (ℚ × ℚ), r.length = 1 → ringLabelCenter r = none := by
  constructor
  · have hd : ((ring.length : ℚ) - 1) ≠ 0 := by
      have h1 : (1 : ℚ) < (ring.length : ℚ) := by exact_mod_cast h
      intro h0
      have : (ring.length : ℚ) = 1 := by linarith
      linarith
    simp [ringLabelCenter, jsDivFin, hd]
  · intro r hr
    match r, hr with
    | [a], _ => simp [ringLabelCenter, jsDivFin]

/-- Demo ring: a closed triangle (first position repeated at the end). -/
def demoRing : List (ℚ × ℚ) := [(0, 0), (2, 0), (0, 2), (0, 0)]

/-- Witness for `ringLabelCenter_mean`: the label of the demo triangle sits at
the mean of its three distinct vertices, `(2/3, 2/3)`, and a one-position ring
yields no finite coordinate. -/
theorem ringLabelCenter_mean_witness :
    ringLabelCenter demoRing = some (2/3, 2/3) ∧
    ringLabelCenter [((5 : ℚ), (5 : ℚ))] = none :=
  ⟨((ringLabelCenter_mean demoRing (by decide)).1).trans (by norm_num [demoRing]),
   (ringLabelCenter_mean demoRing (by decide)).2 [((5 : ℚ), (5 : ℚ))] rfl⟩

/-- C10 counterexample: the claim asserts that for every ring of length `n ≤ 1`
the computed position is not a finite coordinate, but for the empty ring the
divisor is `-1` (not `0`), and `0 / -1` is the finite coordinate `(0, 0)`
(IEEE `-0` is finite). -/
theorem ringLabelCenter_empty_ring :
    ringLabelCenter ([] : List (ℚ × ℚ)) = some (0, 0) := by
  norm_num [ringLabelCenter, jsDivFin]
end MvpMap
